import Mathlib

/-!
Verification of the rule-expression language of
`src/behavioral_patterns/interpreter/dsl_interpreter.py`.

The Python module is shallowly embedded below, stage by stage:
tokenizer (`tokenize`), shunting-yard converter (`to_rpn`), AST builder
(`rpn_to_ast`, entry point `parse`) and the tree-walking evaluator
(`Expr.interpret`).  Python exceptions become the `SynErr` error type of
`Except`.  Python floats produced by `float(...)` on decimal strings are
modelled exactly as fractions (`PyNum`); the model covers the decimal
fragment of `float` (optional sign, digits, optional fractional part,
optional exponent) and not `inf`/`nan`/underscores/surrounding whitespace,
none of which can occur in the inputs treated here.  Fractions are kept
unnormalized (comparisons cross-multiply), so every operation reduces in
the kernel.
-/

/-! ### Character and string utilities -/

/-- The single-quote character (written via its code point). -/
def squote : Char := Char.ofNat 39

/-- `isPrefixL p l` : `p` is a prefix of `l` (Boolean). -/
def isPrefixL : List Char → List Char → Bool
  | [], _ => true
  | _ :: _, [] => false
  | a :: as, b :: bs => a == b && isPrefixL as bs

/-- `subStr hay needle` : `needle` occurs as a contiguous substring of `hay`,
Python's `needle in hay`. -/
def subStr : List Char → List Char → Bool
  | [], needle => needle.isEmpty
  | c :: t, needle => isPrefixL needle (c :: t) || subStr t needle

/-- Split `cs` at the first occurrence of `sep` (assumed nonempty):
returns the part before and the part after, or `none` when `sep` does not
occur.  Backs Python's `str.partition` and `str.split(sep, maxsplit)`. -/
def breakAt (sep : List Char) : List Char → Option (List Char × List Char)
  | [] => none
  | c :: rest =>
    if isPrefixL sep (c :: rest) then some ([], (c :: rest).drop sep.length)
    else (breakAt sep rest).map (fun p => (c :: p.1, p.2))

/-- Python `str.split()` : split on whitespace runs, dropping empty pieces. -/
def splitWsAux : List Char → List Char → List String
  | [], [] => []
  | [], acc => [String.mk acc.reverse]
  | c :: cs, acc =>
    if c.isWhitespace then
      match acc with
      | [] => splitWsAux cs []
      | _ :: _ => String.mk acc.reverse :: splitWsAux cs []
    else splitWsAux cs (c :: acc)

def splitWs (cs : List Char) : List String := splitWsAux cs []

/-- Strip characters satisfying `p` from both ends (Python `str.strip`). -/
def stripEnds (p : Char → Bool) (cs : List Char) : List Char :=
  ((cs.dropWhile p).reverse.dropWhile p).reverse

/-- Python `str.upper` (ASCII; the keywords handled here are ASCII).
Written over the character list so that it reduces in the kernel. -/
def pyUpper (s : String) : String := String.mk (s.data.map Char.toUpper)

/-- Python `str.lower`, over the character list. -/
def strLower (s : String) : String := String.mk (s.data.map Char.toLower)

/-- Decimal digits of a natural number (fuel-bounded division loop). -/
def natDigits : Nat → Nat → List Char
  | 0, _ => []
  | fuel + 1, n =>
    if n < 10 then [Char.ofNat (48 + n)]
    else natDigits fuel (n / 10) ++ [Char.ofNat (48 + n % 10)]

def natStr (n : Nat) : String := String.mk (natDigits (n + 1) n)

/-- Python `str` of an `int`. -/
def intStr : Int → String
  | .ofNat n => natStr n
  | .negSucc n => "-" ++ natStr (n + 1)

/-! ### Exact model of Python floats -/

/-- An exact fraction `num / den` (with `den` positive by construction).
Stands in for the Python `float` values the interpreter computes with;
all floats arising here come from decimal strings, which the model keeps
exact instead of rounding to binary. -/
structure PyNum where
  num : Int
  den : Nat
deriving DecidableEq

def PyNum.eqB (a b : PyNum) : Bool := a.num * (b.den : Int) == b.num * (a.den : Int)

def PyNum.ltB (a b : PyNum) : Bool := decide (a.num * (b.den : Int) < b.num * (a.den : Int))

def PyNum.leB (a b : PyNum) : Bool := decide (a.num * (b.den : Int) ≤ b.num * (a.den : Int))

def PyNum.gtB (a b : PyNum) : Bool := PyNum.ltB b a

def PyNum.geB (a b : PyNum) : Bool := PyNum.leB b a

/-- Python `float.is_integer`. -/
def PyNum.isInt (a : PyNum) : Bool := a.num % (a.den : Int) == 0

/-- Python `int(...)` of an integral float (exact division). -/
def PyNum.asInt (a : PyNum) : Int := a.num / (a.den : Int)

/-- `readDigitsAux acc cnt cs` : consume leading decimal digits of `cs`,
returning (value so far, number of digits, remainder). -/
def readDigitsAux : Nat → Nat → List Char → Nat × Nat × List Char
  | acc, cnt, [] => (acc, cnt, [])
  | acc, cnt, c :: cs =>
    if c.isDigit then readDigitsAux (acc * 10 + (c.toNat - 48)) (cnt + 1) cs
    else (acc, cnt, c :: cs)

/-- Exponent part after the `e`/`E`: optional sign, then at least one digit,
consuming the whole remainder. -/
def readExpAfterE (r : List Char) : Option Int :=
  let sr : Int × List Char :=
    match r with
    | '+' :: t => (1, t)
    | '-' :: t => (-1, t)
    | t => (1, t)
  match readDigitsAux 0 0 sr.2 with
  | (ev, ec, []) => if ec = 0 then none else some (sr.1 * (ev : Int))
  | _ => none

def readExp : List Char → Option Int
  | [] => some 0
  | 'e' :: r => readExpAfterE r
  | 'E' :: r => readExpAfterE r
  | _ :: _ => none

/-- Python `float(s)` for a decimal string: optional sign, digits with an
optional fractional part (`"12"`, `"3.5"`, `".5"`, `"5."`), optional
exponent.  Returns the exact value as a fraction, `none` when Python's
`float` would raise `ValueError`. -/
def pyFloat (s : String) : Option PyNum :=
  let p0 : Int × List Char :=
    match s.data with
    | '+' :: r => (1, r)
    | '-' :: r => (-1, r)
    | r => (1, r)
  let m := readDigitsAux 0 0 p0.2
  let f : Nat × Nat × List Char :=
    match m.2.2 with
    | '.' :: r => readDigitsAux 0 0 r
    | r => (0, 0, r)
  if m.2.1 + f.2.1 == 0 then none
  else
    match readExp f.2.2 with
    | none => none
    | some e =>
      let mant : Int := p0.1 * ((m.1 * 10 ^ f.2.1 + f.1 : Nat) : Int)
      if 0 ≤ e then some (PyNum.mk (mant * ((10 ^ e.toNat : Nat) : Int)) (10 ^ f.2.1))
      else some (PyNum.mk mant (10 ^ f.2.1 * 10 ^ (-e).toNat))

/-- Multiplicity of `p` in `n` (fuel-bounded). -/
def facMult (p : Nat) : Nat → Nat → Nat
  | 0, _ => 0
  | fuel + 1, n =>
    if decide (2 ≤ p) && (n % p == 0) && (n != 0) then facMult p fuel (n / p) + 1
    else 0

/-- Python `str` of a float, for the fractions arising here (denominator a
power of 10): sign, integer part, `.`, fractional digits; integral values
render with a trailing `.0` as Python does. -/
def decimalRepr (q : PyNum) : String :=
  let k := max (facMult 2 q.den q.den) (facMult 5 q.den q.den)
  let scaled : Int := q.num * ((10 ^ k : Nat) : Int) / (q.den : Int)
  let mag := scaled.natAbs
  let ip := mag / 10 ^ k
  let fp := mag % 10 ^ k
  let fracDigits := natDigits (fp + 1) fp
  let fracPad := List.replicate (k - fracDigits.length) '0' ++ fracDigits
  let sign := if scaled < 0 then "-" else ""
  if k = 0 then sign ++ natStr ip ++ ".0"
  else sign ++ natStr ip ++ "." ++ String.mk fracPad

/-! ### Data model: literals, context values, AST, errors -/

/-- The literal stored in a `Comparison` node: Python `int`, `float` or
`str` after the builder's coercion. -/
inductive Lit where
  | int (n : Int)
  | float (q : PyNum)
  | str (s : String)
deriving DecidableEq

/-- A context value (`ctx` maps field names to these).  The example
contexts of the module use strings and ints. -/
inductive PyVal where
  | int (n : Int)
  | str (s : String)
deriving DecidableEq

/-- Evaluation context: field name to value, `dict.get` = `List.lookup`. -/
abbrev Ctx := List (String × PyVal)

/-- The `ValueError`s raised by `tokenize` / `to_rpn` / `rpn_to_ast`,
keyed by message.  `UnpackFailure` models the unpack `ValueError` Python
would raise on a malformed `CMP::`/`INSET::` sentinel token; `FuelOut`
models exhaustion of the explicit bound put on the tokenizer's loop over
a growing list (unreachable for the bound chosen in `tokenize`). -/
inductive SynErr where
  | UnclosedSet
  | MismatchedParens
  | InsufficientOperands
  | InvalidExpression
  | UnexpectedToken (t : String)
  | UnpackFailure
  | FuelOut
deriving DecidableEq

/-- The expression AST: `And`, `Or`, `Not`, `Comparison`, `InSet`. -/
inductive Expr where
  | And (left right : Expr)
  | Or (left right : Expr)
  | Not (expr : Expr)
  | Comparison (field op : String) (value : Lit)
  | InSet (field : String) (values : List String)
deriving DecidableEq

/-! ### Evaluator -/

/-- `to_num` applied to a context value: ints convert, strings parse. -/
def toNumVal : PyVal → Option PyNum
  | .int n => some (PyNum.mk n 1)
  | .str s => pyFloat s

/-- `to_num` applied to an optional lookup result (`float(None)` raises
`TypeError`, which `to_num` catches, yielding `None`). -/
def toNumOpt : Option PyVal → Option PyNum
  | none => none
  | some v => toNumVal v

/-- `to_num` applied to the stored literal. -/
def toNumLit : Lit → Option PyNum
  | .int n => some (PyNum.mk n 1)
  | .float q => some q
  | .str s => pyFloat s

/-- Python `str` of a context value. -/
def pyStrVal : PyVal → String
  | .int n => intStr n
  | .str s => s

/-- Python `str` of a literal. -/
def litStr : Lit → String
  | .int n => intStr n
  | .float q => decimalRepr q
  | .str s => s

/-- `Comparison.interpret`: numeric comparison when both sides parse as
numbers, otherwise case-insensitive string comparison (absent field is
the empty string) where only `=` / `!=` can hold. -/
def cmpInterpret (field op : String) (value : Lit) (ctx : Ctx) : Bool :=
  let left : Option PyVal := List.lookup field ctx
  let lnum : Option PyNum := toNumOpt left
  let rnum : Option PyNum := toNumLit value
  match lnum, rnum with
  | some l, some r =>
    if op = "=" then l.eqB r
    else if op = "!=" then !(l.eqB r)
    else if op = ">" then l.gtB r
    else if op = ">=" then l.geB r
    else if op = "<" then l.ltB r
    else if op = "<=" then l.leB r
    else false
  | _, _ =>
    let ls := strLower (match left with | none => "" | some v => pyStrVal v)
    let rs := strLower (litStr value)
    if op = "=" then ls == rs
    else if op = "!=" then ls != rs
    else false

/-- `InSet.interpret`: absent field is `False`; otherwise case-insensitive
membership of `str(v)` in the value set. -/
def inSetInterpret (field : String) (values : List String) (ctx : Ctx) : Bool :=
  match List.lookup field ctx with
  | none => false
  | some v => values.any (fun s => strLower (pyStrVal v) == strLower s)

/-- The tree-walking evaluator (`interpret` methods of the node classes). -/
def Expr.interpret : Expr → Ctx → Bool
  | .And a b, ctx => a.interpret ctx && b.interpret ctx
  | .Or a b, ctx => a.interpret ctx || b.interpret ctx
  | .Not e, ctx => !(e.interpret ctx)
  | .Comparison f o v, ctx => cmpInterpret f o v ctx
  | .InSet f vs, ctx => inSetInterpret f vs ctx

/-! ### Tokenizer -/

/-- The comparison-operator spellings, in the order the tokenizer scans a
word for an embedded operator (longest first). -/
def OPS : List String := [">=", "<=", "!=", ">", "<", "="]

/-- The separator symbols spaced out and excluded from operator splitting. -/
def SEPARATORS : List String := ["(", ")", "\x7b", "\x7d", ","]

/-- The boolean/membership keywords. -/
def KEYWORDS : List String := ["AND", "OR", "NOT", "IN"]

/-- `is_op` of the source. -/
def isOp (t : String) : Bool := ["=", "!=", ">", ">=", "<", "<="].contains t

/-- The operator on which the tokenizer splits the word `t`, if any: the
first spelling in `OPS` occurring inside `t`, provided `t` is not a
separator symbol and does not uppercase to a keyword. -/
def splitOp? (t : String) : Option String :=
  OPS.find? (fun op =>
    subStr t.data op.data && !(SEPARATORS.contains t) && !(KEYWORDS.contains (pyUpper t)))

/-- The fused comparison sentinel token `CMP::field::op::value`. -/
def cmpTok (field op value : String) : String :=
  "CMP::" ++ field ++ "::" ++ op ++ "::" ++ value

/-- The fused set sentinel token `INSET::field::v1|v2|...`. -/
def insetTok (field : String) (vals : List String) : String :=
  "INSET::" ++ field ++ "::" ++ String.intercalate "|" vals

/-- `.strip().strip(dquote).strip(squote)` applied to a set member. -/
def stripVal (t : String) : String :=
  String.mk (stripEnds (· == squote) (stripEnds (· == '"') (stripEnds Char.isWhitespace t.data)))

/-- Consume tokens of an `IN` set up to the matching close brace, skipping
commas and stripping quotes: returns the collected values and the tokens
after the brace, or `none` when the brace never comes. -/
def scanSetVals : List String → Option (List String × List String)
  | [] => none
  | tok :: rest =>
    if tok = "\x7d" then some ([], rest)
    else if tok = "," then scanSetVals rest
    else (scanSetVals rest).map (fun p => (stripVal tok :: p.1, p.2))

/-- The tokenizer's fusion loop (source lines 103-141).  The Python loop
walks an index over a list it also edits in place; since every access is
at or after the cursor, the state is the suffix from the cursor.  Each
iteration first splits an embedded comparison operator (turning the head
`t` into `field, op, value` in place), then tries to fuse an
`IN \x7b...\x7d` group (needing at least one token after the open brace),
then a `field op value` triple (needing two more tokens), and otherwise
passes the head through.  `fuel` bounds the iteration count; `tokenize`
supplies more than the loop can use. -/
def fuse : Nat → List String → Except SynErr (List String)
  | _, [] => .ok []
  | 0, _ :: _ => .error .FuelOut
  | fuel + 1, t0 :: rest0 =>
    let cur : String × List String :=
      match splitOp? t0 with
      | some op =>
        let p := (breakAt op.data t0.data).getD (t0.data, [])
        (String.mk p.1, op :: String.mk p.2 :: rest0)
      | none => (t0, rest0)
    match cur.2 with
    | "IN" :: "\x7b" :: x :: r3 =>
      (match scanSetVals (x :: r3) with
       | some p => (fuse fuel p.2).map (fun ts => insetTok cur.1 p.1 :: ts)
       | none => .error .UnclosedSet)
    | o :: v :: r2 =>
      if isOp o then (fuse fuel r2).map (fun ts => cmpTok cur.1 o v :: ts)
      else (fuse fuel (o :: v :: r2)).map (fun ts => cur.1 :: ts)
    | r => (fuse fuel r).map (fun ts => cur.1 :: ts)

/-- `tokenize`: space out separators, split on whitespace, uppercase the
keywords, then run the fusion loop. -/
def tokenize (s : String) : Except SynErr (List String) :=
  let spaced := s.data.flatMap (fun c =>
    if ['(', ')', '\x7b', '\x7d', ','].contains c then [' ', c, ' '] else [c])
  let normalized := (splitWs spaced).map (fun p =>
    if KEYWORDS.contains (pyUpper p) then pyUpper p else p)
  fuse (3 * normalized.length + 3) normalized

/-! ### Shunting-yard converter -/

/-- `PRECEDENCE` of the source. -/
def PRECEDENCE : List (String × Nat) := [("NOT", 3), ("AND", 2), ("OR", 1)]

def prec? (t : String) : Option Nat := PRECEDENCE.lookup t

/-- `RIGHT_ASSOC` of the source. -/
def RIGHT_ASSOC : List String := ["NOT"]

/-- Pop operators of higher precedence (or equal, for a left-associative
incoming operator) from the stack to the output (accumulated reversed). -/
def popHigher (t : String) : List String → List String → List String × List String
  | [], out => ([], out)
  | top :: rest, out =>
    match prec? top, prec? t with
    | some pTop, some pT =>
      if pTop > pT || (pTop == pT && !(RIGHT_ASSOC.contains t)) then
        popHigher t rest (top :: out)
      else (top :: rest, out)
    | _, _ => (top :: rest, out)

/-- On a close paren: pop to the output until the matching open paren,
which is discarded; `none` when there is none. -/
def popUntilParen : List String → List String → Option (List String × List String)
  | [], _ => none
  | top :: rest, out => if top = "(" then some (rest, out) else popUntilParen rest (top :: out)

/-- Drain the operator stack at end of input; a leftover paren is a
mismatch. -/
def drainOps : List String → List String → Except SynErr (List String)
  | [], out => .ok out.reverse
  | op :: rest, out =>
    if op = "(" || op = ")" then .error .MismatchedParens
    else drainOps rest (op :: out)

/-- The shunting-yard loop over the token stream (`out` is accumulated in
reverse; `drainOps` restores the order). -/
def rpnLoop : List String → List String → List String → Except SynErr (List String)
  | [], ops, out => drainOps ops out
  | t :: ts, ops, out =>
    if t = "(" then rpnLoop ts ("(" :: ops) out
    else if t = ")" then
      match popUntilParen ops out with
      | some p => rpnLoop ts p.1 p.2
      | none => .error .MismatchedParens
    else if (prec? t).isSome then
      let p := popHigher t ops out
      rpnLoop ts (t :: p.1) p.2
    else rpnLoop ts ops (t :: out)

/-- `to_rpn` of the source. -/
def to_rpn (tokens : List String) : Except SynErr (List String) := rpnLoop tokens [] []

/-! ### AST builder -/

/-- The `::` sentinel separator. -/
def COLONS : List Char := [':', ':']

/-- Python `s.split("::", maxsplit)`. -/
def pySplitColons : Nat → List Char → List (List Char)
  | 0, cs => [cs]
  | n + 1, cs =>
    match breakAt COLONS cs with
    | some p => p.1 :: pySplitColons n p.2
    | none => [cs]

/-- Python `s.split("|")` (no limit; fuel bounded by the length). -/
def splitBar : Nat → List Char → List (List Char)
  | 0, cs => [cs]
  | n + 1, cs =>
    match breakAt ['|'] cs with
    | some p => p.1 :: splitBar n p.2
    | none => [cs]

/-- Strip one layer of matching surrounding quotes (source lines 186-187). -/
def stripQuotes (value : String) : String :=
  let cs := value.data
  if (isPrefixL ['"'] cs && isPrefixL ['"'] cs.reverse) ||
     (isPrefixL [squote] cs && isPrefixL [squote] cs.reverse) then
    String.mk (cs.drop 1).dropLast
  else value

/-- Literal coercion of the AST builder (source lines 185-195): strip one
layer of quotes, then try `float`; an integral float collapses to an int,
a fractional one stays a float, anything unparsable stays a string. -/
def coerceLit (value : String) : Lit :=
  let v := stripQuotes value
  match pyFloat v with
  | some q => if q.isInt then .int q.asInt else .float q
  | none => .str v

/-- The stack walk of `rpn_to_ast`. -/
def astLoop : List String → List Expr → Except SynErr Expr
  | [], stack =>
    match stack with
    | [e] => .ok e
    | _ => .error .InvalidExpression
  | t :: ts, stack =>
    if t = "AND" || t = "OR" then
      match stack with
      | b :: a :: rest =>
        astLoop ts ((if t = "AND" then Expr.And a b else Expr.Or a b) :: rest)
      | _ => .error .InsufficientOperands
    else if t = "NOT" then
      match stack with
      | x :: rest => astLoop ts (Expr.Not x :: rest)
      | [] => .error .InsufficientOperands
    else if isPrefixL ("CMP::").data t.data then
      match pySplitColons 3 t.data with
      | [_, f, o, v] =>
        astLoop ts (Expr.Comparison (String.mk f) (String.mk o) (coerceLit (String.mk v)) :: stack)
      | _ => .error .UnpackFailure
    else if isPrefixL ("INSET::").data t.data then
      match pySplitColons 2 t.data with
      | [_, f, r] =>
        let values := if r.isEmpty then [] else (splitBar r.length r).map String.mk
        astLoop ts (Expr.InSet (String.mk f) values :: stack)
      | _ => .error .UnpackFailure
    else .error (.UnexpectedToken t)

/-- `rpn_to_ast` of the source. -/
def rpn_to_ast (rpn : List String) : Except SynErr Expr := astLoop rpn []

/-- `parse`: tokenize, convert to RPN, build the AST. -/
def parse (rule : String) : Except SynErr Expr := tokenize rule >>= to_rpn >>= rpn_to_ast

/-! ### Statement-side definitions for the specification claims -/

/-- Spec-side numeric comparison: standard ordering semantics for the six
operators, anything else false. -/
def specNumCompare (op : String) (l r : PyNum) : Bool :=
  if op = "=" then l.eqB r
  else if op = "!=" then !(l.eqB r)
  else if op = ">" then l.gtB r
  else if op = ">=" then l.geB r
  else if op = "<" then l.ltB r
  else if op = "<=" then l.leB r
  else false

/-- Spec-side non-numeric comparison: `=`/`!=` test (in)equality, the
ordering operators are false. -/
def specStrCompare (op : String) (ls rs : String) : Bool :=
  if op = "=" then ls == rs
  else if op = "!=" then ls != rs
  else false

/-- The lower-cased string form of the looked-up field value, the absent
field rendering as the empty string (spec wording for the non-numeric
comparison path). -/
def lowerLookup (ctx : Ctx) (field : String) : String :=
  strLower (match List.lookup field ctx with | none => "" | some v => pyStrVal v)

/-- The numeric reading of the looked-up field value, absent fields having
none. -/
def lookupNum (ctx : Ctx) (field : String) : Option PyNum :=
  toNumOpt (List.lookup field ctx)

/-- The token kinds claim C7 asserts are the only tokenizer outputs:
parenthesis/brace/comma symbols, keyword tokens, and the two fused
sentinel kinds. -/
def c7ClaimedTok (t : String) : Bool :=
  SEPARATORS.contains t || KEYWORDS.contains t ||
  isPrefixL ("CMP::").data t.data || isPrefixL ("INSET::").data t.data

/-- The guarantee that does hold (claim C7 amended): every output token is
either one the operator-splitter leaves intact (a separator symbol, a
keyword spelling, or a word with no embedded comparison operator) or a
fused `CMP::` / `INSET::` sentinel.  In particular no standalone
comparison-operator token and no unsplit `field<op>value` word survives;
stray bare identifiers do pass through. -/
def goodTok (t : String) : Bool :=
  (splitOp? t).isNone || isPrefixL ("CMP::").data t.data || isPrefixL ("INSET::").data t.data

/-- Claim C6's coercion read literally: `float` is attempted on the raw
value, and only the string fallback strips the surrounding quotes. -/
def c6ClaimCoerce (value : String) : Lit :=
  match pyFloat value with
  | some q => if q.isInt then .int q.asInt else .float q
  | none => .str (stripQuotes value)

/-- The reference rule of the end-to-end scenario (claim C1). -/
def ruleC1 : String :=
  "(role=admin) OR (dept=finance AND resource=reports AND NOT action=delete) OR (country IN \x7bDE,FR\x7d AND app_version>=3)"

/-- The denied context of the end-to-end scenario (finance + reports but
deleting, wrong country, version too low). -/
def ctxC1 : Ctx :=
  [("role", PyVal.str "user"), ("dept", PyVal.str "finance"),
   ("resource", PyVal.str "reports"), ("action", PyVal.str "delete"),
   ("country", PyVal.str "US"), ("app_version", PyVal.int 2)]

-- Decidable equality on parse results, for concrete evaluations.
deriving instance DecidableEq for Except

/-! ### Helper lemmas -/

lemma isPrefixL_append (p r : List Char) : isPrefixL p (p ++ r) = true := by
  induction p with
  | nil => rfl
  | cons a as ih => simp [isPrefixL, ih]

lemma goodTok_cmpTok (f o v : String) : goodTok (cmpTok f o v) = true := by
  have h : isPrefixL ("CMP::").data (cmpTok f o v).data = true := by
    simp only [cmpTok, String.data_append, List.append_assoc]
    exact isPrefixL_append _ _
  simp [goodTok, h]

lemma goodTok_insetTok (f : String) (vals : List String) : goodTok (insetTok f vals) = true := by
  have h : isPrefixL ("INSET::").data (insetTok f vals).data = true := by
    simp only [insetTok, String.data_append, List.append_assoc]
    exact isPrefixL_append _ _
  simp [goodTok, h]

lemma splitOp?_isOp {t op : String} (h : splitOp? t = some op) : isOp op = true := by
  have hm : op ∈ OPS := List.mem_of_find?_eq_some h
  simp [OPS] at hm
  rcases hm with rfl | rfl | rfl | rfl | rfl | rfl <;> rfl

/-- Every token stream the fusion loop accepts satisfies `goodTok`. -/
lemma fuse_ok_goodTok : ∀ fuel l toks, fuse fuel l = .ok toks → ∀ t ∈ toks, goodTok t = true := by
  intro fuel
  induction fuel with
  | zero =>
    intro l toks h
    cases l with
    | nil => simp [fuse] at h; subst h; simp
    | cons a l => simp [fuse] at h
  | succ fuel ih =>
    intro l toks h
    cases l with
    | nil => simp [fuse] at h; subst h; simp
    | cons t0 rest0 =>
      cases hsp : splitOp? t0 with
      | none =>
        have hgood : goodTok t0 = true := by simp [goodTok, hsp]
        simp only [fuse, hsp] at h
        split at h
        · -- an IN group is fused
          rename_i x r3
          cases hsv : scanSetVals (x :: r3) with
          | none => rw [hsv] at h; simp at h
          | some p =>
            rw [hsv] at h
            cases hf : fuse fuel p.2 with
            | error e => simp [hf, Except.map] at h
            | ok ts =>
              simp only [hf, Except.map] at h
              have hq : insetTok t0 p.1 :: ts = toks := by simpa using h
              subst hq
              exact List.forall_mem_cons.mpr ⟨goodTok_insetTok _ _, ih _ _ hf⟩
        · -- comparison fusion or pass-through
          rename_i o v r2 hnotin
          split at h
          · cases hf : fuse fuel r2 with
            | error e => simp [hf, Except.map] at h
            | ok ts =>
              simp only [hf, Except.map] at h
              have hq : cmpTok t0 o v :: ts = toks := by simpa using h
              subst hq
              exact List.forall_mem_cons.mpr ⟨goodTok_cmpTok _ _ _, ih _ _ hf⟩
          · cases hf : fuse fuel (o :: v :: r2) with
            | error e => simp [hf, Except.map] at h
            | ok ts =>
              simp only [hf, Except.map] at h
              have hq : t0 :: ts = toks := by simpa using h
              subst hq
              exact List.forall_mem_cons.mpr ⟨hgood, ih _ _ hf⟩
        · -- fewer than two tokens follow: pass-through
          cases hf : fuse fuel rest0 with
          | error e => simp [hf, Except.map] at h
          | ok ts =>
            simp only [hf, Except.map] at h
            have hq : t0 :: ts = toks := by simpa using h
            subst hq
            exact List.forall_mem_cons.mpr ⟨hgood, ih _ _ hf⟩
      | some op =>
        have hop : isOp op = true := splitOp?_isOp hsp
        simp only [fuse, hsp] at h
        split at h
        · -- the IN pattern would need op = "IN", impossible for a split operator
          rename_i x r3 heq
          injection heq with h1 _
          subst h1
          exact absurd hop (by decide)
        · -- after a split the comparison always fuses
          rename_i o v r2 hnotin heq
          injection heq with h1 hrest
          injection hrest with h2 h3
          subst h1
          simp only [hop, if_pos] at h
          cases hf : fuse fuel r2 with
          | error e => simp [hf, Except.map] at h
          | ok ts =>
            simp only [hf, Except.map] at h
            have hq :
                cmpTok (String.mk ((breakAt op.data t0.data).getD (t0.data, [])).1) op v :: ts
                  = toks := by
              simpa using h
            subst hq
            exact List.forall_mem_cons.mpr ⟨goodTok_cmpTok _ _ _, ih _ _ hf⟩
        · -- the fallback cannot fire on a two-or-more list
          rename_i hne1 hne2
          exact (hne2 _ _ _ rfl).elim

/-- A set scan over tokens that never include the close brace fails. -/
lemma scanSetVals_none : ∀ l : List String, "\x7d" ∉ l → scanSetVals l = none := by
  intro l
  induction l with
  | nil => intro _; rfl
  | cons tok rest ih =>
    intro h
    have h1 : ¬tok = "\x7d" := fun e => h (by simp [e])
    have h2 : "\x7d" ∉ rest := fun e => h (List.mem_cons_of_mem _ e)
    simp [scanSetVals, h1, ih h2]

/-! ### Claims -/

/-- C1: the reference rule parses, and against the context
role=user, dept=finance, resource=reports, action=delete, country=US,
app_version=2 it evaluates to false (the finance+reports branch is negated
by action=delete; no other branch fires). -/
theorem c1_end_to_end :
    Except.map (fun e => e.interpret ctxC1) (parse ruleC1) = Except.ok false := by
  decide

/-- C3: in "a=1 OR b=2 AND c=3" the AND binds tighter than the OR. -/
theorem c3_and_binds_tighter :
    parse "a=1 OR b=2 AND c=3" =
      Except.ok (Expr.Or (Expr.Comparison "a" "=" (Lit.int 1))
        (Expr.And (Expr.Comparison "b" "=" (Lit.int 2))
          (Expr.Comparison "c" "=" (Lit.int 3)))) := by
  decide

/-- C4: NOT is unary, binds tighter than AND and OR, and is
right-associative: "NOT a=1 AND b=2" is And(Not(a=1), b=2),
"NOT a=1 OR b=2" is Or(Not(a=1), b=2), and "NOT NOT a=1" nests. -/
theorem c4_not_precedence :
    parse "NOT a=1 AND b=2" =
      Except.ok (Expr.And (Expr.Not (Expr.Comparison "a" "=" (Lit.int 1)))
        (Expr.Comparison "b" "=" (Lit.int 2))) ∧
    parse "NOT a=1 OR b=2" =
      Except.ok (Expr.Or (Expr.Not (Expr.Comparison "a" "=" (Lit.int 1)))
        (Expr.Comparison "b" "=" (Lit.int 2))) ∧
    parse "NOT NOT a=1" =
      Except.ok (Expr.Not (Expr.Not (Expr.Comparison "a" "=" (Lit.int 1)))) := by
  refine ⟨by decide, by decide, by decide⟩

/-- C10: an IN predicate with an empty brace list is accepted, producing an
InSet leaf with no values, which is false in every context. -/
theorem c10_empty_in_set :
    parse "f IN \x7b \x7d" = Except.ok (Expr.InSet "f" []) ∧
    ∀ ctx : Ctx, Expr.interpret (Expr.InSet "f" []) ctx = false := by
  refine ⟨by decide, ?_⟩
  intro ctx
  simp [Expr.interpret, inSetInterpret]
  cases List.lookup "f" ctx <;> simp

/-- C7: refuted as stated - a raw field token can appear in a successful
token stream.  On "x =" the tokenizer emits the bare field "x" untouched
(and fuses the operator with an empty field) yet succeeds, and "x" is
none of the four claimed token kinds. -/
theorem c7_raw_field_passes_through :
    tokenize "x =" = Except.ok ["x", "CMP::::=::"] ∧ c7ClaimedTok "x" = false := by
  refine ⟨by decide, by decide⟩

/-- C7 (amended): every token of a successful tokenize run is either a
token the operator-splitter leaves intact (separator symbol, keyword
spelling, or word with no embedded comparison operator - this admits
stray bare identifiers) or a fused CMP/INSET sentinel; in particular no
standalone operator token and no unsplit field-op-value word appears. -/
theorem c7_token_stream_shapes :
    ∀ (s : String) (toks : List String), tokenize s = Except.ok toks →
      ∀ t ∈ toks, goodTok t = true := by
  intro s toks h
  simp only [tokenize] at h
  exact fuse_ok_goodTok _ _ _ h

theorem c7_token_stream_shapes_witness : goodTok "CMP::a::=::1" = true :=
  c7_token_stream_shapes "a=1" ["CMP::a::=::1"] (by decide) "CMP::a::=::1" (by decide)

/-- C8: refuted as stated - with no token at all after the opening brace
the IN group is not recognized (the source requires an index three past
the field), so "x IN \x7b" tokenizes successfully even though the brace
is never closed; parse then fails with UnexpectedToken, not UnclosedSet. -/
theorem c8_missing_brace_not_always_unclosed :
    tokenize "x IN \x7b" = Except.ok ["x", "IN", "\x7b"] ∧
    parse "x IN \x7b" = Except.error (SynErr.UnexpectedToken "x") := by
  refine ⟨by decide, by decide⟩

/-- C8 (amended): whenever the fusion loop reaches a token the splitter
leaves intact, immediately followed by IN, an open brace and at least one
further token, with the close brace nowhere among the remaining tokens,
tokenization fails with UnclosedSet; in particular "x IN \x7ba, b" and its
parse fail with UnclosedSet. -/
theorem c8_unclosed_set :
    (∀ (fuel : Nat) (t x : String) (r3 : List String),
      splitOp? t = none → "\x7d" ∉ x :: r3 →
        fuse (fuel + 1) (t :: "IN" :: "\x7b" :: x :: r3) = Except.error SynErr.UnclosedSet) ∧
    tokenize "x IN \x7ba, b" = Except.error SynErr.UnclosedSet ∧
    parse "x IN \x7ba, b" = Except.error SynErr.UnclosedSet := by
  refine ⟨?_, by decide, by decide⟩
  intro fuel t x r3 hsp hnb
  have hsv : scanSetVals (x :: r3) = none := scanSetVals_none _ hnb
  simp [fuse, hsp, hsv]

theorem c8_unclosed_set_witness :
    fuse 5 ["f", "IN", "\x7b", "a"] = Except.error SynErr.UnclosedSet :=
  c8_unclosed_set.1 4 "f" "a" [] (by decide) (by decide)

/-- C2: comparison evaluation takes the numeric path exactly when both the
looked-up value and the literal read as numbers, comparing with standard
ordering semantics, and otherwise compares lower-cased string forms (an
absent field rendering as the empty string) where only = and != can hold
and ordering operators are false; with the three concrete examples. -/
theorem c2_comparison_semantics :
    (∀ (field op : String) (value : Lit) (ctx : Ctx),
      op ∈ ["=", "!=", ">", ">=", "<", "<="] →
        Expr.interpret (Expr.Comparison field op value) ctx =
          match lookupNum ctx field, toNumLit value with
          | some l, some r => specNumCompare op l r
          | _, _ => specStrCompare op (lowerLookup ctx field) (strLower (litStr value))) ∧
    Except.map (fun e => e.interpret [("age", PyVal.str "20")]) (parse "age>=18")
      = Except.ok true ∧
    Except.map (fun e => e.interpret [("role", PyVal.str "Admin")]) (parse "role=admin")
      = Except.ok true ∧
    Except.map (fun e => e.interpret [("role", PyVal.str "Admin")]) (parse "role>admin")
      = Except.ok false := by
  refine ⟨?_, by decide, by decide, by decide⟩
  intro field op value ctx hop
  have hint : Expr.interpret (Expr.Comparison field op value) ctx
      = cmpInterpret field op value ctx := rfl
  rw [hint]
  simp only [cmpInterpret, lookupNum, lowerLookup]
  fin_cases hop <;>
    cases toNumOpt (List.lookup field ctx) <;> cases toNumLit value <;>
      simp [specNumCompare, specStrCompare]

theorem c2_comparison_semantics_witness :
    Expr.interpret (Expr.Comparison "age" ">=" (Lit.int 18)) [("age", PyVal.str "20")] =
      match lookupNum [("age", PyVal.str "20")] "age", toNumLit (Lit.int 18) with
      | some l, some r => specNumCompare ">=" l r
      | _, _ => specStrCompare ">=" (lowerLookup [("age", PyVal.str "20")] "age")
          (strLower (litStr (Lit.int 18))) :=
  c2_comparison_semantics.1 "age" ">=" (Lit.int 18) [("age", PyVal.str "20")] (by decide)

/-- C5: InSet evaluation is false on an absent field, and otherwise true
exactly when the lower-cased string form of the value equals some
lower-cased member; with the concrete country-in-DE-FR examples. -/
theorem c5_inset_semantics :
    (∀ (field : String) (values : List String) (ctx : Ctx),
      (List.lookup field ctx = none → Expr.interpret (Expr.InSet field values) ctx = false) ∧
      (∀ v, List.lookup field ctx = some v →
        (Expr.interpret (Expr.InSet field values) ctx = true ↔
          ∃ s ∈ values, strLower (pyStrVal v) = strLower s))) ∧
    Except.map (fun e => e.interpret [("country", PyVal.str "de")])
      (parse "country IN \x7bDE, FR\x7d") = Except.ok true ∧
    Except.map (fun e => e.interpret []) (parse "country IN \x7bDE, FR\x7d")
      = Except.ok false := by
  refine ⟨?_, by decide, by decide⟩
  intro field values ctx
  constructor
  · intro h
    simp [Expr.interpret, inSetInterpret, h]
  · intro v hv
    simp [Expr.interpret, inSetInterpret, hv, List.any_eq_true]

theorem c5_inset_semantics_witness :
    Expr.interpret (Expr.InSet "country" ["DE", "FR"]) [] = false :=
  (c5_inset_semantics.1 "country" ["DE", "FR"] []).1 (by decide)

/-- C9: evaluation never errors and resolves data problems to the
documented defaults - set membership on an absent field is false, and an
ordering comparison is false whenever either side has no numeric
reading. -/
theorem c9_evaluation_defaults :
    (∀ (field : String) (values : List String) (ctx : Ctx),
      List.lookup field ctx = none → Expr.interpret (Expr.InSet field values) ctx = false) ∧
    (∀ (field op : String) (value : Lit) (ctx : Ctx),
      op ∈ [">", ">=", "<", "<="] →
      (lookupNum ctx field = none ∨ toNumLit value = none) →
        Expr.interpret (Expr.Comparison field op value) ctx = false) := by
  constructor
  · intro field values ctx h
    simp [Expr.interpret, inSetInterpret, h]
  · intro field op value ctx hop hnone
    have hint : Expr.interpret (Expr.Comparison field op value) ctx
        = cmpInterpret field op value ctx := rfl
    rw [hint]
    simp only [lookupNum] at hnone
    simp only [cmpInterpret]
    rcases hnone with h | h
    · rw [h]
      fin_cases hop <;> simp
    · rw [h]
      cases toNumOpt (List.lookup field ctx) <;> fin_cases hop <;> simp

theorem c9_evaluation_defaults_witness :
    Expr.interpret (Expr.InSet "country" ["DE"]) [] = false ∧
    Expr.interpret (Expr.Comparison "role" ">" (Lit.str "admin"))
      [("role", PyVal.str "Admin")] = false :=
  ⟨c9_evaluation_defaults.1 "country" ["DE"] [] (by decide),
   c9_evaluation_defaults.2 "role" ">" (Lit.str "admin") [("role", PyVal.str "Admin")]
     (by decide) (Or.inl (by decide))⟩

/-- C6: refuted as stated - quote stripping happens before the numeric
parse, so the quoted literal '5' (which float rejects raw) nevertheless
coerces to the integer 5, where the claim's reading keeps the string
"5". -/
theorem c6_quoted_numeral_coerces :
    coerceLit (String.mk [squote, '5', squote]) = Lit.int 5 ∧
    c6ClaimCoerce (String.mk [squote, '5', squote]) = Lit.str "5" ∧
    pyFloat (String.mk [squote, '5', squote]) = none := by
  refine ⟨by decide, by decide, by decide⟩

/-- C6 (amended): the builder first strips one layer of matching quotes;
the stripped value then either parses as a float with no fractional part
and normalizes to an integer representation, parses with a fractional
part and stays a number, or fails to parse and stays a string. -/
theorem c6_literal_coercion :
    ∀ raw : String,
      (∃ q, pyFloat (stripQuotes raw) = some q ∧ q.isInt = true ∧
        coerceLit raw = Lit.int q.asInt) ∨
      (∃ q, pyFloat (stripQuotes raw) = some q ∧ q.isInt = false ∧
        coerceLit raw = Lit.float q) ∨
      (pyFloat (stripQuotes raw) = none ∧ coerceLit raw = Lit.str (stripQuotes raw)) := by
  intro raw
  cases hq : pyFloat (stripQuotes raw) with
  | none => exact Or.inr (Or.inr ⟨rfl, by simp [coerceLit, hq]⟩)
  | some q =>
    cases hi : q.isInt with
    | true => exact Or.inl ⟨q, rfl, hi, by simp [coerceLit, hq, hi]⟩
    | false => exact Or.inr (Or.inl ⟨q, rfl, hi, by simp [coerceLit, hq, hi]⟩)
